import Mathlib

/-!
Formal model of the packunpack LSF binary codec.

This file is a shallow embedding, in Lean 4, of the Rust sources
`src/lsf.rs`, `src/resource.rs` and `src/compression.rs` of the
`packunpack` repository, together with theorems about the embedded
definitions.

Modelling conventions:
* Byte streams are `List Nat`, one element per byte (little-endian
  multi-byte fields are assembled explicitly).
* Rust `String` values are modelled by their UTF-8 byte sequences
  (`Bytes := List Nat`); `String::from_utf8_lossy` is the identity on
  the byte sequence (all concrete inputs considered here are ASCII).
* `f32`/`f64` payloads are modelled by their IEEE-754 bit patterns
  (the Rust code only moves these bits between stream and value).
* `HashMap` fields are modelled as association lists in insertion
  order, with `hmInsert` replacing the value of an existing key.
* `Uuid` is modelled by its 16 internal bytes (`Uuid::from_bytes` /
  `Uuid::as_bytes` are inverse bijections in Rust).
-/

set_option maxRecDepth 200000

namespace PackUnpack

/-- Bytes of a stream or of a Rust string (UTF-8). -/
abbrev Bytes := List Nat

/-! ### Little-endian encodings and decodings -/

/-- Two-byte little-endian encoding of a `u16` value. -/
def u16le (n : Nat) : List Nat := [n % 256, n / 256 % 256]

/-- Four-byte little-endian encoding of a `u32` value. -/
def u32le (n : Nat) : List Nat :=
  [n % 256, n / 256 % 256, n / 65536 % 256, n / 16777216 % 256]

/-- Eight-byte little-endian encoding of a `u64` value. -/
def u64le (n : Nat) : List Nat :=
  u32le (n % 4294967296) ++ u32le (n / 4294967296)

/-- Reinterpret an unsigned `w`-bit value as a two's-complement signed integer. -/
def toSigned (w : Nat) (n : Nat) : Int :=
  if n < 2 ^ (w - 1) then (n : Int) else (n : Int) - 2 ^ w

/-- Two-byte little-endian encoding of an `i16` value (two's complement). -/
def i16le (v : Int) : List Nat := u16le (v % 65536).toNat

/-- Four-byte little-endian encoding of an `i32` value (two's complement). -/
def i32le (v : Int) : List Nat := u32le (v % 4294967296).toNat

/-- One-byte encoding of an `i8` value (two's complement). -/
def i8le (v : Int) : List Nat := [(v % 256).toNat]

/-- Eight-byte little-endian encoding of an `i64` value (two's complement). -/
def i64le (v : Int) : List Nat := u64le (v % 18446744073709551616).toNat

/-- Little-endian `u16` at offset `i` of a byte list (missing bytes read as 0). -/
def u16At (l : List Nat) (i : Nat) : Nat :=
  l.getD i 0 + 256 * l.getD (i + 1) 0

/-- Little-endian `u32` at offset `i` of a byte list (missing bytes read as 0). -/
def u32At (l : List Nat) (i : Nat) : Nat :=
  l.getD i 0 + 256 * l.getD (i + 1) 0 + 65536 * l.getD (i + 2) 0
    + 16777216 * l.getD (i + 3) 0

/-- Little-endian `i32` at offset `i` of a byte list. -/
def i32At (l : List Nat) (i : Nat) : Int := toSigned 32 (u32At l i)

/-- Read a `u8` from the head of a stream (`read_u8`). -/
def readU8 : List Nat → Option (Nat × List Nat)
  | b0 :: rest => some (b0, rest)
  | _ => none

/-- Read a little-endian `u16` from the head of a stream (`read_u16`). -/
def readU16 : List Nat → Option (Nat × List Nat)
  | b0 :: b1 :: rest => some (b0 + 256 * b1, rest)
  | _ => none

/-- Read a little-endian `u32` from the head of a stream (`read_u32`). -/
def readU32 : List Nat → Option (Nat × List Nat)
  | b0 :: b1 :: b2 :: b3 :: rest =>
    some (b0 + 256 * b1 + 65536 * b2 + 16777216 * b3, rest)
  | _ => none

/-- Read a little-endian `u64` from the head of a stream (`read_u64`). -/
def readU64 (l : List Nat) : Option (Nat × List Nat) := do
  let (lo, l) ← readU32 l
  let (hi, l) ← readU32 l
  some (lo + 4294967296 * hi, l)

/-! ### Decimal and hexadecimal formatting (Rust `format!`) -/

/-- Structural worker for `toDec`; `fuel` bounds the digit count (the digit
loop runs at most `n + 1` times), keeping the recursion structural so that
it reduces definitionally. -/
def toDecFuel (fuel n : Nat) : List Nat :=
  match fuel with
  | 0 => []
  | fuel + 1 => if n < 10 then [48 + n] else toDecFuel fuel (n / 10) ++ [48 + n % 10]

/-- Decimal ASCII digits of `n` (`format!("{}", n)`). -/
def toDec (n : Nat) : List Nat := toDecFuel (n + 1) n

/-- Lowercase hexadecimal ASCII digit for `d < 16`. -/
def hexChar (d : Nat) : Nat := if d < 10 then 48 + d else 87 + d

/-- Structural worker for `toHex`; `fuel` bounds the digit count. -/
def toHexFuel (fuel n : Nat) : List Nat :=
  match fuel with
  | 0 => []
  | fuel + 1 => if n < 16 then [hexChar n] else toHexFuel fuel (n / 16) ++ [hexChar (n % 16)]

/-- Lowercase hexadecimal ASCII digits of `n`, without padding. -/
def toHex (n : Nat) : List Nat := toHexFuel (n + 1) n

/-- `format!("{:08x}", n)`: lowercase hex, zero-padded to at least 8 digits. -/
def hex8 (n : Nat) : List Nat :=
  List.replicate (8 - (toHex n).length) 48 ++ toHex n

/-! ### ASCII byte constants for the string literals in `lsf.rs` -/

/-- Bytes of `"LSOF"` (the LSF magic). -/
def lsofMagic : List Nat := [76, 83, 79, 70]

/-- Bytes of `"ActiveProfile"`. -/
def sActiveProfile : Bytes := [65, 99, 116, 105, 118, 101, 80, 114, 111, 102, 105, 108, 101]

/-- Bytes of `"UserProfiles"`. -/
def sUserProfiles : Bytes := [85, 115, 101, 114, 80, 114, 111, 102, 105, 108, 101, 115]

/-- Bytes of `"node_"`. -/
def sNodePrefix : Bytes := [110, 111, 100, 101, 95]

/-- Bytes of `"Unknown_0x"`. -/
def sUnknown0x : Bytes := [85, 110, 107, 110, 111, 119, 110, 95, 48, 120]

/-- Bytes of `"attr_0x"`. -/
def sAttr0x : Bytes := [97, 116, 116, 114, 95, 48, 120]

/-- Bytes of `"Region_"`. -/
def sRegionPrefix : Bytes := [82, 101, 103, 105, 111, 110, 95]

/-- Bytes of `"DefaultRegion_"`. -/
def sDefaultRegionPrefix : Bytes :=
  [68, 101, 102, 97, 117, 108, 116, 82, 101, 103, 105, 111, 110, 95]

/-- Bytes of `"string_attr_"`. -/
def sStringAttrPrefix : Bytes := [115, 116, 114, 105, 110, 103, 95, 97, 116, 116, 114, 95]

/-- Bytes of `"found_string_"`. -/
def sFoundStringPrefix : Bytes :=
  [102, 111, 117, 110, 100, 95, 115, 116, 114, 105, 110, 103, 95]

/-! ### `src/resource.rs`: the attribute type catalog and in-memory resource -/

/-- `AttributeType` from `resource.rs` (34 variants, ids 0..33). -/
inductive AttributeType where
  | None | Byte | Short | UShort | Int | UInt | Float | Double
  | IVec2 | IVec3 | IVec4 | Vec2 | Vec3 | Vec4
  | Mat2 | Mat3 | Mat3x4 | Mat4x3 | Mat4
  | Bool | String | Path | FixedString | LSString
  | ULongLong | ScratchBuffer | LongLong | Int8
  | TranslatedString | WString | LSWString | UUID | Int64 | TranslatedFSString
deriving DecidableEq

/-- The numeric discriminant assigned to each variant in the `enum AttributeType`
declaration of `resource.rs` (`None = 0`, ..., `TranslatedFSString = 33`). -/
def AttributeType.to_id : AttributeType → Nat
  | .None => 0 | .Byte => 1 | .Short => 2 | .UShort => 3 | .Int => 4
  | .UInt => 5 | .Float => 6 | .Double => 7 | .IVec2 => 8 | .IVec3 => 9
  | .IVec4 => 10 | .Vec2 => 11 | .Vec3 => 12 | .Vec4 => 13 | .Mat2 => 14
  | .Mat3 => 15 | .Mat3x4 => 16 | .Mat4x3 => 17 | .Mat4 => 18 | .Bool => 19
  | .String => 20 | .Path => 21 | .FixedString => 22 | .LSString => 23
  | .ULongLong => 24 | .ScratchBuffer => 25 | .LongLong => 26 | .Int8 => 27
  | .TranslatedString => 28 | .WString => 29 | .LSWString => 30 | .UUID => 31
  | .Int64 => 32 | .TranslatedFSString => 33

/-- `AttributeType::from_u8` from `resource.rs`. -/
def AttributeType.from_u8 : Nat → Option AttributeType
  | 0 => some .None | 1 => some .Byte | 2 => some .Short | 3 => some .UShort
  | 4 => some .Int | 5 => some .UInt | 6 => some .Float | 7 => some .Double
  | 8 => some .IVec2 | 9 => some .IVec3 | 10 => some .IVec4 | 11 => some .Vec2
  | 12 => some .Vec3 | 13 => some .Vec4 | 14 => some .Mat2 | 15 => some .Mat3
  | 16 => some .Mat3x4 | 17 => some .Mat4x3 | 18 => some .Mat4 | 19 => some .Bool
  | 20 => some .String | 21 => some .Path | 22 => some .FixedString
  | 23 => some .LSString | 24 => some .ULongLong | 25 => some .ScratchBuffer
  | 26 => some .LongLong | 27 => some .Int8 | 28 => some .TranslatedString
  | 29 => some .WString | 30 => some .LSWString | 31 => some .UUID
  | 32 => some .Int64 | 33 => some .TranslatedFSString
  | _ => none

/-- The built-in `String` type, under a name that stays unambiguous inside the
`AttributeType` and `AttributeValue` namespaces (which have constructors also
called `String`). -/
abbrev TagString := String

/-- `AttributeType::as_str` from `resource.rs` (the XML-facing textual tag). -/
def AttributeType.as_str : AttributeType → TagString
  | .None => "None" | .Byte => "uint8" | .Short => "int16" | .UShort => "uint16"
  | .Int => "int32" | .UInt => "uint32" | .Float => "float" | .Double => "double"
  | .IVec2 => "ivec2" | .IVec3 => "ivec3" | .IVec4 => "ivec4"
  | .Vec2 => "fvec2" | .Vec3 => "fvec3" | .Vec4 => "fvec4"
  | .Mat2 => "mat2" | .Mat3 => "mat3" | .Mat3x4 => "mat3x4"
  | .Mat4x3 => "mat4x3" | .Mat4 => "mat4" | .Bool => "bool"
  | .String => "LSString" | .Path => "path" | .FixedString => "FixedString"
  | .LSString => "LSString" | .ULongLong => "uint64"
  | .ScratchBuffer => "ScratchBuffer" | .LongLong => "int64" | .Int8 => "int8"
  | .TranslatedString => "TranslatedString" | .WString => "WString"
  | .LSWString => "LSWString" | .UUID => "guid" | .Int64 => "int64"
  | .TranslatedFSString => "TranslatedFSString"

/-- `AttributeType::from_str` from `resource.rs` (match arms in source order). -/
def AttributeType.from_str (s : TagString) : Option AttributeType :=
  if s = "None" then some .None
  else if s = "uint8" then some .Byte
  else if s = "int16" then some .Short
  else if s = "uint16" then some .UShort
  else if s = "int32" then some .Int
  else if s = "uint32" then some .UInt
  else if s = "float" then some .Float
  else if s = "double" then some .Double
  else if s = "ivec2" then some .IVec2
  else if s = "ivec3" then some .IVec3
  else if s = "ivec4" then some .IVec4
  else if s = "fvec2" then some .Vec2
  else if s = "fvec3" then some .Vec3
  else if s = "fvec4" then some .Vec4
  else if s = "mat2" then some .Mat2
  else if s = "mat3" then some .Mat3
  else if s = "mat3x4" then some .Mat3x4
  else if s = "mat4x3" then some .Mat4x3
  else if s = "mat4" then some .Mat4
  else if s = "bool" then some .Bool
  else if s = "LSString" then some .String
  else if s = "path" then some .Path
  else if s = "FixedString" then some .FixedString
  else if s = "uint64" then some .ULongLong
  else if s = "ScratchBuffer" then some .ScratchBuffer
  else if s = "int64" then some .LongLong
  else if s = "int8" then some .Int8
  else if s = "TranslatedString" then some .TranslatedString
  else if s = "WString" then some .WString
  else if s = "LSWString" then some .LSWString
  else if s = "guid" then some .UUID
  else if s = "TranslatedFSString" then some .TranslatedFSString
  else none

/-- The built-in `Bool` type, under a name that stays unambiguous inside the
`AttributeValue` declaration (which has a constructor also called `Bool`). -/
abbrev BoolValue := Bool

/-- `AttributeValue` from `resource.rs`.
Integers are `Int`/`Nat` with the width bounds of the Rust types implicit;
float fields hold IEEE-754 bit patterns; vector and matrix payloads are
scalar lists in declared order; `WString`/`LSWString` hold UTF-16 code
units; `UUID` holds the 16 internal bytes of the `Uuid`. -/
inductive AttributeValue where
  | None
  | Byte (v : Nat)
  | Short (v : Int)
  | UShort (v : Nat)
  | Int (v : Int)
  | UInt (v : Nat)
  | Float (bits : Nat)
  | Double (bits : Nat)
  | IVec2 (v : List Int)
  | IVec3 (v : List Int)
  | IVec4 (v : List Int)
  | Vec2 (bits : List Nat)
  | Vec3 (bits : List Nat)
  | Vec4 (bits : List Nat)
  | Mat2 (bits : List Nat)
  | Mat3 (bits : List Nat)
  | Mat3x4 (bits : List Nat)
  | Mat4x3 (bits : List Nat)
  | Mat4 (bits : List Nat)
  | Bool (v : BoolValue)
  | String (s : Bytes)
  | Path (s : Bytes)
  | FixedString (s : Bytes)
  | LSString (s : Bytes)
  | ULongLong (v : Nat)
  | ScratchBuffer (b : Bytes)
  | LongLong (v : Int)
  | Int8 (v : Int)
  | TranslatedString (value handle : Bytes)
  | WString (units : List Nat)
  | LSWString (units : List Nat)
  | UUID (bytes : Bytes)
  | Int64 (v : Int)
  | TranslatedFSString (value handle : Bytes)
deriving DecidableEq

/-- `NodeAttribute` from `resource.rs`. -/
structure NodeAttribute where
  attribute_type : AttributeType
  value : AttributeValue
deriving DecidableEq

/-- `Node` from `resource.rs`; `attributes` is the `HashMap` modelled as an
association list in insertion order. -/
inductive Node where
  | mk (id : Bytes) (name : Option Bytes) (parent : Option Bytes)
      (attributes : List (Bytes × NodeAttribute)) (children : List Node)

/-- The `id` field of a `Node`. -/
def Node.id : Node → Bytes
  | .mk i _ _ _ _ => i

/-- The `name` field of a `Node`. -/
def Node.name : Node → Option Bytes
  | .mk _ n _ _ _ => n

/-- The `parent` field of a `Node`. -/
def Node.parent : Node → Option Bytes
  | .mk _ _ p _ _ => p

/-- The `attributes` field of a `Node`. -/
def Node.attributes : Node → List (Bytes × NodeAttribute)
  | .mk _ _ _ a _ => a

/-- The `children` field of a `Node`. -/
def Node.children : Node → List Node
  | .mk _ _ _ _ c => c

/-- `Region` from `resource.rs`. -/
structure Region where
  name : Bytes
  nodes : List Node

/-- `Metadata` from `resource.rs`. -/
structure Metadata where
  major_version : Nat
  minor_version : Nat
  revision : Nat
  build_number : Nat
deriving DecidableEq

/-- `Resource` from `resource.rs`; `regions` is the `HashMap` modelled as an
association list in insertion order. -/
structure Resource where
  metadata : Metadata
  regions : List (Bytes × Region)

/-- `HashMap::insert` on the association-list model: replace the value of an
existing key, otherwise append the new binding. -/
def hmInsert {α : Type} : List (Bytes × α) → Bytes → α → List (Bytes × α)
  | [], k, v => [(k, v)]
  | (k1, v1) :: rest, k, v =>
    if k1 = k then (k, v) :: rest else (k1, v1) :: hmInsert rest k v

/-- Insert a binding into a node's attribute map (`node.attributes.insert`). -/
def Node.insertAttr : Node → Bytes → NodeAttribute → Node
  | .mk i n p a c, k, v => .mk i n p (hmInsert a k v) c

/-! ### `src/compression.rs` -/

/-- `CompressionMethod` from `compression.rs`. -/
inductive CompressionMethod where
  | None | Zlib | Lz4 | Zstd
deriving DecidableEq

/-- `CompressionMethod::from_u32` from `compression.rs`. -/
def CompressionMethod.from_u32 : Nat → Option CompressionMethod
  | 0 => some .None
  | 1 => some .Zlib
  | 2 => some .Lz4
  | 3 => some .Zstd
  | _ => none

/-- `decompress` from `compression.rs`. `CompressionMethod::None` returns the
data unchanged (the `expected_size` argument is not used on that path). The
zlib, LZ4 and Zstd branches call the external `flate2`, `lz4_flex` and `zstd`
libraries, whose algorithms are outside this repository and are not modelled;
no theorem below depends on a compressed chunk. -/
def decompress (data : List Nat) (method : CompressionMethod)
    (_expected_size : Nat) : Option (List Nat) :=
  match method with
  | .None => some data
  | _ => none

/-! ### `src/lsf.rs`: record types and string table -/

/-- `NodeEntry` from `lsf.rs`. -/
structure NodeEntry where
  name_hash_table_index : Nat
  parent_index : Int
  next_sibling_index : Int
  first_attribute_index : Int
deriving DecidableEq, Inhabited

/-- `AttributeEntry` from `lsf.rs`. -/
structure AttributeEntry where
  name_hash_table_index : Nat
  type_and_length : Nat
  next_attribute_index : Int
  offset : Nat
deriving DecidableEq, Inhabited

/-- `AttributeEntry::attribute_type`: the low 6 bits of `type_and_length`. -/
def AttributeEntry.attribute_type (e : AttributeEntry) : Option AttributeType :=
  AttributeType.from_u8 (e.type_and_length % 64)

/-- `AttributeEntry::length`: the high 26 bits of `type_and_length`. -/
def AttributeEntry.length (e : AttributeEntry) : Nat :=
  e.type_and_length / 64

/-- `StringTable` from `lsf.rs`: hash-bucket layout or sequential fallback. -/
inductive StringTable where
  | hashTable (buckets : List (List Bytes))
  | sequential (strings : List Bytes)

/-- Validity of a byte sequence as UTF-8 (`String::from_utf8` succeeds):
1-byte `00..7F`; 2-byte `C2..DF` + continuation; 3-byte `E0..EF` with the
overlong/surrogate restrictions; 4-byte `F0..F4` with the range restrictions.
Continuation bytes are `80..BF`. -/
def validUtf8 : List Nat → Bool
  | [] => true
  | b0 :: rest =>
    if b0 < 0x80 then validUtf8 rest
    else if 0xC2 ≤ b0 ∧ b0 ≤ 0xDF then
      match rest with
      | c1 :: rest1 => (0x80 ≤ c1 ∧ c1 ≤ 0xBF : Bool) && validUtf8 rest1
      | _ => false
    else if 0xE0 ≤ b0 ∧ b0 ≤ 0xEF then
      match rest with
      | c1 :: c2 :: rest2 =>
        (let lo1 := if b0 = 0xE0 then 0xA0 else 0x80
         let hi1 := if b0 = 0xED then 0x9F else 0xBF
         (lo1 ≤ c1 ∧ c1 ≤ hi1 ∧ 0x80 ≤ c2 ∧ c2 ≤ 0xBF : Bool)) && validUtf8 rest2
      | _ => false
    else if 0xF0 ≤ b0 ∧ b0 ≤ 0xF4 then
      match rest with
      | c1 :: c2 :: c3 :: rest3 =>
        (let lo1 := if b0 = 0xF0 then 0x90 else 0x80
         let hi1 := if b0 = 0xF4 then 0x8F else 0xBF
         (lo1 ≤ c1 ∧ c1 ≤ hi1 ∧ 0x80 ≤ c2 ∧ c2 ≤ 0xBF ∧ 0x80 ≤ c3 ∧ c3 ≤ 0xBF : Bool))
          && validUtf8 rest3
      | _ => false
    else false

/-- The `bucket_count == 0` scan of `parse_string_table` (`lsf.rs` lines
283-306): walk the data one byte at a time looking for a `[1, 0, len_lo,
len_hi]` header, collect each in-bounds non-empty string, and step past it;
otherwise advance one byte. `l` is the suffix of the chunk starting at the
current scan position (the scan starts at offset 4, right after
`bucket_count`), and the loop runs while at least 4 bytes remain. The scan
position advances by at least one byte per iteration, so `fuel = l.length`
(supplied by `scanStrings`) covers every iteration; the explicit fuel keeps
the recursion structural so that it reduces definitionally. -/
def scanStringsFuel (fuel : Nat) (l : List Nat) (acc : List Bytes) : List Bytes :=
  match fuel with
  | 0 => acc
  | fuel + 1 =>
    match l with
    | b0 :: b1 :: b2 :: b3 :: rest =>
      if b0 = 1 ∧ b1 = 0 then
        let str_len := b2 + 256 * b3
        if str_len ≤ rest.length then
          let s := rest.take str_len
          scanStringsFuel fuel (rest.drop str_len) (if s ≠ [] then acc ++ [s] else acc)
        else scanStringsFuel fuel (b1 :: b2 :: b3 :: rest) acc
      else scanStringsFuel fuel (b1 :: b2 :: b3 :: rest) acc
    | _ => acc

/-- The `bucket_count == 0` scan, starting with fuel covering the whole
suffix. -/
def scanStrings (l : List Nat) (acc : List Bytes) : List Bytes :=
  scanStringsFuel l.length l acc

/-- One chain of the canonical `bucket_count == 0x200` layout: `chain_length`
entries of `[u16 byte_length][bytes]`, with strict UTF-8 validation
(`String::from_utf8` errors make `parse_string_table` fail). Returns the
chain and the remaining stream. -/
def parseBucketChain (l : List Nat) (chain_length : Nat) (acc : List Bytes) :
    Option (List Bytes × List Nat) :=
  match chain_length with
  | 0 => some (acc, l)
  | n + 1 => do
    let (str_len, l) ← readU16 l
    if str_len ≤ l.length then
      let string_bytes := l.take str_len
      if validUtf8 string_bytes then
        parseBucketChain (l.drop str_len) n (acc ++ [string_bytes])
      else none
    else none

/-- The canonical layout's bucket loop: `count` buckets, each a `u16`
chain length followed by its chain. -/
def parseBuckets (l : List Nat) (count : Nat) (acc : List (List Bytes)) :
    Option (List (List Bytes)) :=
  match count with
  | 0 => some acc
  | n + 1 => do
    let (chain_length, l) ← readU16 l
    let (chain, l) ← parseBucketChain l chain_length []
    parseBuckets l n (acc ++ [chain])

/-- The sequential fallback of `parse_string_table` (unexpected bucket
count): records of `[u8 flag][u8 pad][u16 len][bytes]`, read while at least
4 bytes remain; a record extending past the end of the data breaks the
loop. `String::from_utf8_lossy` never fails. The cursor advances by at
least 4 bytes per iteration, so `fuel = l.length` (supplied by
`parseSequential`) covers every iteration. -/
def parseSequentialFuel (fuel : Nat) (l : List Nat) (acc : List Bytes) : List Bytes :=
  match fuel with
  | 0 => acc
  | fuel + 1 =>
    match l with
    | _flag :: _pad :: b2 :: b3 :: rest =>
      let str_len := b2 + 256 * b3
      if str_len > rest.length then acc
      else parseSequentialFuel fuel (rest.drop str_len) (acc ++ [rest.take str_len])
    | _ => acc

/-- The sequential fallback, starting with fuel covering the whole suffix. -/
def parseSequential (l : List Nat) (acc : List Bytes) : List Bytes :=
  parseSequentialFuel l.length l acc

/-- `parse_string_table` from `lsf.rs`: empty data gives an empty 0x200-bucket
hash table; `bucket_count == 0` scans for `[1,0,len]` records into bucket 0 of
a synthesized 0x200-bucket table; `bucket_count == 0x200` parses the canonical
hashed layout; any other bucket count falls back to sequential parsing. -/
def parse_string_table (data : List Nat) : Option StringTable :=
  if data = [] then some (.hashTable (List.replicate 0x200 []))
  else do
    let (bucket_count, rest) ← readU32 data
    if bucket_count = 0 then
      some (.hashTable (scanStrings rest [] :: List.replicate 0x1FF []))
    else if bucket_count = 0x200 then do
      let buckets ← parseBuckets rest 0x200 []
      some (.hashTable buckets)
    else
      some (.sequential (parseSequential rest []))

/-- `get_string_from_hash` from `lsf.rs`: resolve a packed 32-bit string
reference (upper 16 bits bucket, lower 16 bits chain index), with the
hard-coded compact-format fallback mappings. The Rust modulo fallback
`hash % buckets[0].len()` panics when bucket 0 is empty (division by zero);
that case is modelled as resolution failure (the reader would not return a
`Resource` at all). -/
def get_string_from_hash (string_table : StringTable) (hash : Nat) : Option Bytes :=
  match string_table with
  | .hashTable buckets =>
    if hash = 0xFFFFFFFF then none
    else
      let bucket_idx := hash / 0x10000
      let string_idx := hash % 0x10000
      let b0 := buckets.getD 0 []
      if bucket_idx = 0 ∧ string_idx < b0.length then b0.get? string_idx
      else if bucket_idx < buckets.length ∧
          string_idx < (buckets.getD bucket_idx []).length then
        (buckets.getD bucket_idx []).get? string_idx
      else
        let mapped_idx : Option Nat :=
          if hash < 0x100 ∧ hash < b0.length then some hash
          else match hash with
            | 0x2d => some 3
            | 0x30 => some 4
            | 0x32 => some 5
            | 0x3b => some 1
            | 0x3c => some 9
            | 0x3d => some 6
            | 0x3e => some 7
            | 0x3f => some 8
            | 0x44 => some 9
            | 0x45 => some 10
            | 0x46 => some 11
            | 0x47 => some 12
            | 0x48 => some 13
            | _ =>
              let mod_idx := hash % b0.length
              if 0 < b0.length ∧ mod_idx < b0.length then some mod_idx else none
        match mapped_idx with
        | some idx => b0.get? idx
        | none => none
  | .sequential strings =>
    if hash = 0xFFFFFFFF then none else strings.get? hash

/-- The record loop of `parse_node_entries`: 16-byte records
`[u32 name][i32 parent][i32 next_sibling][i32 first_attribute]` for
version ≥ 3, 12-byte records without `next_sibling` (imputed `-1`) before
version 3, read while a full record remains. The cursor advances by a full
record per iteration, so `fuel = l.length` (supplied by
`parse_node_entries`) covers every iteration. -/
def parseNodeEntriesLoop (version : Nat) (fuel : Nat) (l : List Nat) : List NodeEntry :=
  match fuel with
  | 0 => []
  | fuel + 1 =>
    if 3 ≤ version then
      if 16 ≤ l.length then
        ⟨u32At l 0, i32At l 4, i32At l 8, i32At l 12⟩ ::
          parseNodeEntriesLoop version fuel (l.drop 16)
      else []
    else
      if 12 ≤ l.length then
        ⟨u32At l 0, i32At l 4, -1, i32At l 8⟩ ::
          parseNodeEntriesLoop version fuel (l.drop 12)
      else []

/-- `parse_node_entries` from `lsf.rs`. -/
def parse_node_entries (data : List Nat) (version : Nat) : List NodeEntry :=
  if data = [] then [] else parseNodeEntriesLoop version data.length data

/-- The record loop of `parse_attribute_entries`: 16-byte records
`[u32 name][u32 type_and_length][i32 next_attribute][u32 offset]` for
version ≥ 3, 12-byte records with `offset = 0` before version 3. The
cursor advances by a full record per iteration, so `fuel = l.length`
(supplied by `parse_attribute_entries`) covers every iteration. -/
def parseAttributeEntriesLoop (version : Nat) (fuel : Nat) (l : List Nat) :
    List AttributeEntry :=
  match fuel with
  | 0 => []
  | fuel + 1 =>
    if 3 ≤ version then
      if 16 ≤ l.length then
        ⟨u32At l 0, u32At l 4, i32At l 8, u32At l 12⟩ ::
          parseAttributeEntriesLoop version fuel (l.drop 16)
      else []
    else
      if 12 ≤ l.length then
        ⟨u32At l 0, u32At l 4, i32At l 8, 0⟩ ::
          parseAttributeEntriesLoop version fuel (l.drop 12)
      else []

/-- `parse_attribute_entries` from `lsf.rs`. -/
def parse_attribute_entries (data : List Nat) (version : Nat) : List AttributeEntry :=
  if data = [] then [] else parseAttributeEntriesLoop version data.length data

/-! ### `src/lsf.rs`: the value codec -/

/-- Strip trailing zero elements (the `while last == 0 { pop }` loops that
remove NUL terminators from decoded strings). -/
def stripTrailingZeros (l : List Nat) : List Nat :=
  (l.reverse.dropWhile (fun b => b = 0)).reverse

/-- Read `n` little-endian `i32` values from the head of a stream. -/
def readI32List (bytes : List Nat) (n : Nat) : Option (List Int) :=
  if 4 * n ≤ bytes.length then some ((List.range n).map fun i => i32At bytes (4 * i))
  else none

/-- Read `n` little-endian `u32` bit patterns from the head of a stream
(used for the `f32` vector and matrix payloads). -/
def readU32List (bytes : List Nat) (n : Nat) : Option (List Nat) :=
  if 4 * n ≤ bytes.length then some ((List.range n).map fun i => u32At bytes (4 * i))
  else none

/-- Read `n` little-endian `u16` values from the head of a stream
(UTF-16 code units of the wide-string payloads). -/
def readU16List (bytes : List Nat) (n : Nat) : Option (List Nat) :=
  if 2 * n ≤ bytes.length then some ((List.range n).map fun i => u16At bytes (2 * i))
  else none

/-- The shared decode of `TranslatedString` and `TranslatedFSString` payloads
(`lsf.rs` lines 920-996, identical in both arms): declared length below 4
yields empty value and handle; otherwise the payload buffer is
`[u16 version][u16 value_length][value bytes][null-padded handle]`. When
`value_length` exceeds the bytes left in the buffer, the Rust
`read_exact(...).unwrap_or_default()` keeps the partially-filled,
zero-initialized buffer and leaves the cursor at the buffer end; the model
pads the available bytes with zeros accordingly. -/
def readTranslated (bytes : List Nat) (length : Nat) : Option (Bytes × Bytes) :=
  if length < 4 then some ([], [])
  else if length ≤ bytes.length then
    let buffer := bytes.take length
    let value_len := u16At buffer 2
    let body := buffer.drop 4
    let (value, pos) :=
      if 0 < value_len ∧ value_len < length then
        if value_len ≤ body.length then (body.take value_len, 4 + value_len)
        else (body ++ List.replicate (value_len - body.length) 0, length)
      else ([], 4)
    let handle := stripTrailingZeros (buffer.drop pos)
    some (value, handle)
  else none

/-- `read_attribute_value` from `lsf.rs`: the type-driven value decoder.
`bytes` is the value stream starting at the seek position of the attribute;
`length` is the declared payload length from `type_and_length`. A `none`
result is the Rust `Err` (short reads, or the 1 MiB safety cap). -/
def read_attribute_value (bytes : List Nat) (attr_type : AttributeType)
    (length : Nat) : Option AttributeValue :=
  if length > 1024 * 1024 then none
  else match attr_type with
    | .None => some .None
    | .Byte => (readU8 bytes).map fun p => .Byte p.1
    | .Short =>
      if 2 ≤ bytes.length then some (.Short (toSigned 16 (u16At bytes 0))) else none
    | .UShort => if 2 ≤ bytes.length then some (.UShort (u16At bytes 0)) else none
    | .Int => if 4 ≤ bytes.length then some (.Int (i32At bytes 0)) else none
    | .UInt => if 4 ≤ bytes.length then some (.UInt (u32At bytes 0)) else none
    | .Float => if 4 ≤ bytes.length then some (.Float (u32At bytes 0)) else none
    | .Double =>
      if 8 ≤ bytes.length then
        some (.Double (u32At bytes 0 + 4294967296 * u32At bytes 4))
      else none
    | .Int8 => (readU8 bytes).map fun p => .Int8 (toSigned 8 p.1)
    | .Int64 =>
      if 8 ≤ bytes.length then
        some (.Int64 (toSigned 64 (u32At bytes 0 + 4294967296 * u32At bytes 4)))
      else none
    | .ULongLong =>
      if 8 ≤ bytes.length then
        some (.ULongLong (u32At bytes 0 + 4294967296 * u32At bytes 4))
      else none
    | .LongLong =>
      if 8 ≤ bytes.length then
        some (.LongLong (toSigned 64 (u32At bytes 0 + 4294967296 * u32At bytes 4)))
      else none
    | .Bool => (readU8 bytes).map fun p => .Bool (p.1 ≠ 0)
    | .IVec2 => (readI32List bytes 2).map .IVec2
    | .IVec3 => (readI32List bytes 3).map .IVec3
    | .IVec4 => (readI32List bytes 4).map .IVec4
    | .Vec2 => (readU32List bytes 2).map .Vec2
    | .Vec3 => (readU32List bytes 3).map .Vec3
    | .Vec4 => (readU32List bytes 4).map .Vec4
    | .Mat2 => (readU32List bytes 4).map .Mat2
    | .Mat3 => (readU32List bytes 9).map .Mat3
    | .Mat3x4 => (readU32List bytes 12).map .Mat3x4
    | .Mat4x3 => (readU32List bytes 12).map .Mat4x3
    | .Mat4 => (readU32List bytes 16).map .Mat4
    | .String =>
      if length = 0 then some (.String [])
      else if length ≤ bytes.length then
        some (.String (stripTrailingZeros (bytes.take length)))
      else none
    | .LSString =>
      -- the `String | LSString` match arms both build `AttributeValue::String`
      if length = 0 then some (.String [])
      else if length ≤ bytes.length then
        some (.String (stripTrailingZeros (bytes.take length)))
      else none
    | .Path =>
      if length = 0 then some (.Path [])
      else if length ≤ bytes.length then
        some (.Path (stripTrailingZeros (bytes.take length)))
      else none
    | .FixedString =>
      if length = 0 then some (.FixedString [])
      else if length ≤ bytes.length then
        some (.FixedString (stripTrailingZeros (bytes.take length)))
      else none
    | .WString =>
      if length = 0 then some (.WString [])
      else (readU16List bytes (length / 2)).map fun chars =>
        .WString (stripTrailingZeros chars)
    | .LSWString =>
      if length = 0 then some (.LSWString [])
      else (readU16List bytes (length / 2)).map fun chars =>
        .LSWString (stripTrailingZeros chars)
    | .UUID =>
      if 16 ≤ bytes.length then
        let uuid_bytes := bytes.take 16
        -- LSLib-compatible non-standard swap: reverse the last 8 bytes
        some (.UUID (uuid_bytes.take 8 ++ (uuid_bytes.drop 8).reverse))
      else none
    | .TranslatedString =>
      (readTranslated bytes length).map fun p => .TranslatedString p.1 p.2
    | .TranslatedFSString =>
      (readTranslated bytes length).map fun p => .TranslatedFSString p.1 p.2
    | .ScratchBuffer =>
      if length ≤ bytes.length then some (.ScratchBuffer (bytes.take length)) else none

/-- `read_node_attributes` from `lsf.rs`: walk an attribute chain starting at
`attr_index`, accumulating decoded attributes into the node's attribute map.
`fuel` is `MAX_ATTRIBUTES - attributes_read` (initially 1000); `visited`
detects circular chains; `current_offset` is the running pre-v3 value
cursor (the v3+ path seeks to each record's explicit `offset`). Decode
failures skip the attribute and continue; out-of-bounds seeks break the
chain; the function never fails (the Rust function always returns `Ok`). -/
def read_node_attributes (version : Nat) (string_table : StringTable)
    (attribute_entries : List AttributeEntry) (values : List Nat)
    (attr_index : Int) (current_offset : Nat) (visited : List Int) (fuel : Nat)
    (attrs : List (Bytes × NodeAttribute)) : List (Bytes × NodeAttribute) :=
  match fuel with
  | 0 => attrs
  | fuel + 1 =>
    if 0 ≤ attr_index ∧ attr_index.toNat < attribute_entries.length then
      if visited.contains attr_index then attrs
      else
      let visited := attr_index :: visited
      let e := attribute_entries.getD attr_index.toNat default
      let attr_name := (get_string_from_hash string_table e.name_hash_table_index).getD
        (sAttr0x ++ hex8 e.name_hash_table_index)
      match e.attribute_type with
      | none =>
        -- unknown attribute type: skip, continue with the chain
        read_node_attributes version string_table attribute_entries values
          e.next_attribute_index current_offset visited fuel attrs
      | some attr_type =>
        let seek_pos := if 3 ≤ version then e.offset else current_offset
        if seek_pos ≥ values.length then attrs
        else
          let attr_length := e.length
          if seek_pos + attr_length > values.length then attrs
          else
            let attrs :=
              match read_attribute_value (values.drop seek_pos) attr_type attr_length with
              | some v => hmInsert attrs attr_name ⟨attr_type, v⟩
              | none => attrs
            let current_offset :=
              if version < 3 then current_offset + attr_length else current_offset
            read_node_attributes version string_table attribute_entries values
              e.next_attribute_index current_offset visited fuel attrs
    else attrs

/-! ### `src/lsf.rs`: graph reconstruction (`build_resource`) -/

/-- The node construction of `build_resource`'s first pass (`lsf.rs` lines
528-551): resolve the node name (synthetic `Unknown_0x<hex>` when
unresolved), read its attribute chain when there are attribute entries and
`first_attribute_index ≥ 0`, and build the `Node` with id `node_<idx>`,
no parent link and no children. -/
def buildNode (version : Nat) (string_table : StringTable)
    (attribute_entries : List AttributeEntry) (values_data : List Nat)
    (node_idx : Nat) (e : NodeEntry) : Node :=
  let node_name := (get_string_from_hash string_table e.name_hash_table_index).getD
    (sUnknown0x ++ hex8 e.name_hash_table_index)
  let attrs :=
    if attribute_entries ≠ [] ∧ 0 ≤ e.first_attribute_index then
      read_node_attributes version string_table attribute_entries values_data
        e.first_attribute_index 0 [] 1000 []
    else []
  .mk (sNodePrefix ++ toDec node_idx) (some node_name) none attrs []

/-- The loop of `build_resource`'s second pass that adds every non-empty
bucket-0 string of length > 3 and different from the region name as a
synthetic `string_attr_<idx>` attribute of a region's root node
(`lsf.rs` lines 562-577). -/
def attachExtraStrings (string_table : StringTable) (region_name : Bytes)
    (node : Node) : Node :=
  match string_table with
  | .hashTable buckets =>
    let b0 := buckets.getD 0 []
    if b0 ≠ [] then
      b0.enum.foldl (fun node si =>
        if si.2 ≠ region_name ∧ si.2 ≠ [] ∧ 3 < si.2.length then
          node.insertAttr (sStringAttrPrefix ++ toDec si.1)
            ⟨AttributeType.String, AttributeValue.String si.2⟩
        else node) node
    else node
  | .sequential _ => node

/-- The body of `build_resource`'s root-region handling (`lsf.rs` lines
557-586): take the node at `node_idx` out of the `nodes` array, name the
region after the node (falling back to `Region_<idx>`), attach the leftover
bucket-0 strings, and insert a single-node region. The accumulator is
`(nodes, regions, found_regions)`. -/
def regionStepRoot (string_table : StringTable)
    (acc : List (Option Node) × List (Bytes × Region) × Bool) (node_idx : Nat) :
    List (Option Node) × List (Bytes × Region) × Bool :=
  match acc.1.getD node_idx none with
  | some node =>
    let region_name := node.name.getD (sRegionPrefix ++ toDec node_idx)
    let node := attachExtraStrings string_table region_name node
    (acc.1.set node_idx none,
      hmInsert acc.2.1 region_name ⟨region_name, [node]⟩, true)
  | none => acc

/-- One iteration of `build_resource`'s second pass (`lsf.rs` lines 555-587):
a node entry is handled as a region root exactly when `parent_index ≤ 0`
(the source comment reads "Changed from == -1 to <= 0 for more inclusive
root detection"); all other entries leave the accumulator unchanged. -/
def regionStep (string_table : StringTable) (node_entries : List NodeEntry)
    (acc : List (Option Node) × List (Bytes × Region) × Bool) (node_idx : Nat) :
    List (Option Node) × List (Bytes × Region) × Bool :=
  if (node_entries.getD node_idx default).parent_index ≤ 0 then
    regionStepRoot string_table acc node_idx
  else acc

/-- The fallback loop that adds every non-empty bucket-0 string of length
> 3 as a synthetic `found_string_<idx>` attribute (`lsf.rs` lines 596-610). -/
def attachAllStrings (string_table : StringTable) (node : Node) : Node :=
  match string_table with
  | .hashTable buckets =>
    let b0 := buckets.getD 0 []
    if b0 ≠ [] then
      b0.enum.foldl (fun node si =>
        if si.2 ≠ [] ∧ 3 < si.2.length then
          node.insertAttr (sFoundStringPrefix ++ toDec si.1)
            ⟨AttributeType.String, AttributeValue.String si.2⟩
        else node) node
    else node
  | .sequential _ => node

/-- `build_resource`'s zero-region fallback (`lsf.rs` lines 590-621): scan
the (already taken-from) nodes array for the first remaining node, wrap it in
a synthetic `DefaultRegion_<idx>` region, and stop. -/
def defaultRegionPass (string_table : StringTable) :
    List (Option Node) → Nat → List (Bytes × Region) →
      List (Bytes × Region) × Bool
  | [], _, regions => (regions, false)
  | none :: rest, idx, regions => defaultRegionPass string_table rest (idx + 1) regions
  | some node :: _, idx, regions =>
    let region_name := sDefaultRegionPrefix ++ toDec idx
    let node := attachAllStrings string_table node
    (hmInsert regions region_name ⟨region_name, [node]⟩, true)

/-- `build_resource` from `lsf.rs`: build all nodes, then insert one region
per entry with `parent_index ≤ 0`, then, when no region was found, fall back
to a synthetic default region around the first node. Metadata carries the
file version as `major_version` and zeros elsewhere. The function never
fails (the Rust function always returns `Ok`). -/
def build_resource (version : Nat) (string_table : StringTable)
    (node_entries : List NodeEntry) (attribute_entries : List AttributeEntry)
    (values_data : List Nat) : Resource :=
  let metadata : Metadata := ⟨version, 0, 0, 0⟩
  if node_entries = [] then ⟨metadata, []⟩
  else
    let nodes : List (Option Node) := node_entries.enum.map fun ie =>
      some (buildNode version string_table attribute_entries values_data ie.1 ie.2)
    let res := (List.range node_entries.length).foldl
      (regionStep string_table node_entries) (nodes, [], false)
    if res.2.2 = false ∧ res.1.isEmpty = false then
      ⟨metadata, (defaultRegionPass string_table res.1 0 res.2.1).1⟩
    else ⟨metadata, res.2.1⟩

/-! ### `src/lsf.rs`: file framing and the reader pipeline -/

/-- `LsfHeader` from `lsf.rs`. -/
structure LsfHeader where
  magic : List Nat
  version : Nat
  engine_version : Nat

/-- `LsfMetadata` from `lsf.rs`. -/
structure LsfMetadata where
  strings_uncompressed_size : Nat
  strings_compressed_size : Nat
  keys_uncompressed_size : Nat
  keys_compressed_size : Nat
  nodes_uncompressed_size : Nat
  nodes_compressed_size : Nat
  attributes_uncompressed_size : Nat
  attributes_compressed_size : Nat
  values_uncompressed_size : Nat
  values_compressed_size : Nat
  compression_flags : Nat
  unknown2 : Nat
  unknown3 : Nat
  unknown4 : Nat

/-- `read_header` from `lsf.rs`: 4 magic bytes, `u32` version, `u64` engine
version. -/
def read_header (l : List Nat) : Option (LsfHeader × List Nat) :=
  if 4 ≤ l.length then do
    let (version, rest) ← readU32 (l.drop 4)
    let (engine_version, rest) ← readU64 rest
    some (⟨l.take 4, version, engine_version⟩, rest)
  else none

/-- Read `n` consecutive little-endian `u32` fields from the head of a
stream, failing on a short stream (each field is a `read_u32` call). -/
def readU32Fields : Nat → List Nat → Option (List Nat × List Nat)
  | 0, l => some ([], l)
  | n + 1, l => do
    let (x, l) ← readU32 l
    let (xs, l) ← readU32Fields n l
    some (x :: xs, l)

/-- `read_metadata` from `lsf.rs`: fourteen consecutive `u32` fields for
version ≥ 6 (with the Keys chunk sizes), twelve fields and zero Keys sizes
below. -/
def read_metadata (l : List Nat) (version : Nat) : Option (LsfMetadata × List Nat) :=
  if 6 ≤ version then do
    let (f, l) ← readU32Fields 14 l
    some (⟨f.getD 0 0, f.getD 1 0, f.getD 2 0, f.getD 3 0, f.getD 4 0, f.getD 5 0,
      f.getD 6 0, f.getD 7 0, f.getD 8 0, f.getD 9 0, f.getD 10 0, f.getD 11 0,
      f.getD 12 0, f.getD 13 0⟩, l)
  else do
    let (f, l) ← readU32Fields 12 l
    some (⟨f.getD 0 0, f.getD 1 0, 0, 0, f.getD 2 0, f.getD 3 0, f.getD 4 0,
      f.getD 5 0, f.getD 6 0, f.getD 7 0, f.getD 8 0, f.getD 9 0, f.getD 10 0,
      f.getD 11 0⟩, l)

/-- `get_compression_method` from `lsf.rs`: the low nibble of the flags word,
falling back to `CompressionMethod::None` when it is not a defined method
(`flags & 0x0F` is `flags % 16`). -/
def get_compression_method (flags : Nat) : CompressionMethod :=
  (CompressionMethod.from_u32 (flags % 16)).getD .None

/-- `read_and_decompress_chunk` from `lsf.rs`: `compressed_size == 0` with a
non-zero `uncompressed_size` reads that many raw bytes; both zero is an empty
chunk; otherwise `compressed_size` bytes are read and decompressed. Returns
the chunk and the remaining stream. -/
def read_and_decompress_chunk (l : List Nat) (compressed_size uncompressed_size : Nat)
    (method : CompressionMethod) : Option (List Nat × List Nat) :=
  if compressed_size = 0 ∧ uncompressed_size ≠ 0 then
    if uncompressed_size ≤ l.length then
      some (l.take uncompressed_size, l.drop uncompressed_size)
    else none
  else if compressed_size = 0 ∧ uncompressed_size = 0 then some ([], l)
  else if compressed_size ≤ l.length then
    (decompress (l.take compressed_size) method uncompressed_size).map
      fun d => (d, l.drop compressed_size)
  else none

/-- The parsing stage of `read_lsf_from_stream` (`lsf.rs` lines 74-168):
header and magic check, metadata, the five chunks (Keys only for version ≥ 6,
and the Values chunk is the remainder of the stream regardless of its
declared sizes), the string table and the record arrays. -/
def read_lsf_parts (bytes : List Nat) :
    Option (Nat × StringTable × List NodeEntry × List AttributeEntry × List Nat) := do
  let (header, rest) ← read_header bytes
  if header.magic = lsofMagic then do
    let (md, rest) ← read_metadata rest header.version
    let method := get_compression_method md.compression_flags
    let (strings_data, rest) ← read_and_decompress_chunk rest
      md.strings_compressed_size md.strings_uncompressed_size method
    let (_keys_data, rest) ←
      if 6 ≤ header.version then
        read_and_decompress_chunk rest md.keys_compressed_size
          md.keys_uncompressed_size method
      else some ([], rest)
    let (nodes_data, rest) ← read_and_decompress_chunk rest
      md.nodes_compressed_size md.nodes_uncompressed_size method
    let (attributes_data, rest) ← read_and_decompress_chunk rest
      md.attributes_compressed_size md.attributes_uncompressed_size method
    let values_data := rest
    let string_table ← parse_string_table strings_data
    let node_entries := parse_node_entries nodes_data header.version
    let attribute_entries := parse_attribute_entries attributes_data header.version
    some (header.version, string_table, node_entries, attribute_entries, values_data)
  else none

/-- `read_lsf_from_stream` from `lsf.rs`: parse the file, then reconstruct
the `Resource` with `build_resource`. -/
def read_lsf_from_stream (bytes : List Nat) : Option Resource :=
  (read_lsf_parts bytes).map fun parts =>
    match parts with
    | (version, string_table, node_entries, attribute_entries, values_data) =>
      build_resource version string_table node_entries attribute_entries values_data

/-! ### `src/lsf.rs`: the writer -/

/-- `write_attribute_value` from `lsf.rs`: serialize one attribute value.
String-like values get a one-byte NUL terminator, wide strings a two-byte
one; the UUID is written with `uuid.as_bytes()` (the internal byte order,
with no swap); `None` writes nothing. -/
def write_attribute_value : AttributeValue → List Nat
  | .None => []
  | .Byte v => [v % 256]
  | .Short v => i16le v
  | .UShort v => u16le v
  | .Int v => i32le v
  | .UInt v => u32le v
  | .Float bits => u32le bits
  | .Double bits => u64le bits
  | .Bool v => [if v then 1 else 0]
  | .String s => s ++ [0]
  | .Path s => s ++ [0]
  | .FixedString s => s ++ [0]
  | .LSString s => s ++ [0]
  | .ULongLong v => u64le v
  | .LongLong v => i64le v
  | .Int8 v => i8le v
  | .Int64 v => i64le v
  | .UUID b => b
  | .IVec2 v => (v.map i32le).flatten
  | .IVec3 v => (v.map i32le).flatten
  | .IVec4 v => (v.map i32le).flatten
  | .Vec2 bits => (bits.map u32le).flatten
  | .Vec3 bits => (bits.map u32le).flatten
  | .Vec4 bits => (bits.map u32le).flatten
  | .Mat2 bits => (bits.map u32le).flatten
  | .Mat3 bits => (bits.map u32le).flatten
  | .Mat3x4 bits => (bits.map u32le).flatten
  | .Mat4x3 bits => (bits.map u32le).flatten
  | .Mat4 bits => (bits.map u32le).flatten
  | .TranslatedString value _ => value ++ [0]
  | .TranslatedFSString value _ => value ++ [0]
  | .WString units => (units.map u16le).flatten ++ u16le 0
  | .LSWString units => (units.map u16le).flatten ++ u16le 0
  | .ScratchBuffer b => b

/-- Push a string onto the pool unless it is already present
(the repeated `if !strings.contains(x) { strings.push(x) }` pattern of
`create_strings_chunk`). -/
def pushIfMissing (strings : List Bytes) (s : Bytes) : List Bytes :=
  if s ∈ strings then strings else strings ++ [s]

/-- The string collection of `create_strings_chunk` (`lsf.rs` lines
1097-1132): all region names unconditionally, then per top-level node the
node name, the attribute names, and the string-like attribute values, each
skipped when already present. -/
def collectStrings (resource : Resource) : List Bytes :=
  let strings := resource.regions.map Prod.fst
  resource.regions.foldl (fun strings nr =>
    nr.2.nodes.foldl (fun strings node =>
      let strings :=
        match node.name with
        | some name => pushIfMissing strings name
        | none => strings
      node.attributes.foldl (fun strings na =>
        let strings := pushIfMissing strings na.1
        match na.2.value with
        | .String s => pushIfMissing strings s
        | .Path s => pushIfMissing strings s
        | .FixedString s => pushIfMissing strings s
        | .LSString s => pushIfMissing strings s
        | _ => strings) strings) strings) strings

/-- The full string pool written by `create_strings_chunk`: the collected
strings plus the hard-coded `"ActiveProfile"` and `"UserProfiles"` entries. -/
def strings_pool (resource : Resource) : List Bytes :=
  pushIfMissing (pushIfMissing (collectStrings resource) sActiveProfile) sUserProfiles

/-- One sequential string record of `create_strings_chunk`:
`[u8 1][u8 0][u16 len][bytes]`. -/
def encStringRecord (s : Bytes) : List Nat := [1, 0] ++ u16le s.length ++ s

/-- `create_strings_chunk` from `lsf.rs`: a zero `bucket_count`, zero padding
up to offset 712 (`data.resize(712, 0)`), then the pool as sequential
records. -/
def create_strings_chunk (resource : Resource) : List Nat :=
  (u32le 0 ++ List.replicate 708 0) ++ ((strings_pool resource).map encStringRecord).flatten

/-- The hard-coded placeholder node record emitted by `create_nodes_chunk`
when it does not assign an attribute index: name id `0xffffffff`, parent 0,
next sibling `0x01670000`, first attribute `0x00095600`. -/
def placeholderNodeRecord : List Nat :=
  u32le 0xffffffff ++ i32le 0 ++ i32le 0x01670000 ++ i32le 0x00095600

/-- `create_nodes_chunk` from `lsf.rs` (lines 1157-1190): an empty resource
gets one placeholder record; otherwise one record per top-level node with
hard-coded name id `0xffffffff`, parent 0 and sibling `0x01670000`, where a
node with attributes gets the running `attr_index` as its first-attribute
field (incremented once per such node) and a node without attributes gets
the placeholder `0x00095600`. -/
def create_nodes_chunk (resource : Resource) : List Nat :=
  if resource.regions.isEmpty then placeholderNodeRecord
  else
    (resource.regions.foldl (fun acc nr =>
      nr.2.nodes.foldl (fun acc node =>
        let data := acc.1 ++ u32le 0xffffffff ++ i32le 0 ++ i32le 0x01670000
        if node.attributes.isEmpty = false then (data ++ i32le acc.2, acc.2 + 1)
        else (data ++ i32le 0x00095600, acc.2)) acc)
      (([], 0) : List Nat × Int)).1

/-- The hard-coded placeholder attribute record of `create_attributes_chunk`:
name id `0xffffffff`, `type_and_length` 0, next attribute `0x31303532`,
offset `0x39303637`. -/
def placeholderAttributeRecord : List Nat :=
  u32le 0xffffffff ++ u32le 0 ++ u32le 0x31303532 ++ u32le 0x39303637

/-- `create_attributes_chunk` from `lsf.rs` (lines 1192-1217): one
placeholder record per attribute of every top-level node, or a single
placeholder record when the resource has no attributes at all. -/
def create_attributes_chunk (resource : Resource) : List Nat :=
  let data := resource.regions.foldl (fun data nr =>
    nr.2.nodes.foldl (fun data node =>
      node.attributes.foldl (fun data _ => data ++ placeholderAttributeRecord) data)
      data) []
  if data = [] then placeholderAttributeRecord else data

/-- `create_values_chunk` from `lsf.rs` (lines 1219-1238): the attribute
values of every top-level node back to back, or 29 zero bytes when there are
none. -/
def create_values_chunk (resource : Resource) : List Nat :=
  let data := resource.regions.foldl (fun data nr =>
    nr.2.nodes.foldl (fun data node =>
      node.attributes.foldl (fun data na => data ++ write_attribute_value na.2.value)
        data) data) []
  if data = [] then List.replicate 29 0 else data

/-- `write_metadata_v6` from `lsf.rs`: the fourteen `u32` metadata fields,
with every compressed size zero (chunks are stored raw), zero compression
flags and zero reserved words. -/
def write_metadata_v6 (strings_data keys_data nodes_data attributes_data
    values_data : List Nat) : List Nat :=
  u32le strings_data.length ++ u32le 0 ++
  u32le keys_data.length ++ u32le 0 ++
  u32le nodes_data.length ++ u32le 0 ++
  u32le attributes_data.length ++ u32le 0 ++
  u32le values_data.length ++ u32le 0 ++
  u32le 0 ++ u32le 0 ++ u32le 0 ++ u32le 0

/-- `write_lsf` from `lsf.rs`: magic, `u32` version, zero engine version,
v6 metadata, then the five chunks (Keys empty) back to back. -/
def write_lsf (resource : Resource) : List Nat :=
  let strings_data := create_strings_chunk resource
  let keys_data : List Nat := []
  let nodes_data := create_nodes_chunk resource
  let attributes_data := create_attributes_chunk resource
  let values_data := create_values_chunk resource
  lsofMagic ++ u32le resource.metadata.major_version ++ u64le 0 ++
    write_metadata_v6 strings_data keys_data nodes_data attributes_data values_data ++
    strings_data ++ keys_data ++ nodes_data ++ attributes_data ++ values_data

/-! ### Helper lemmas -/

/-- A predicate preserved by every fold step holds of the fold result. -/
theorem foldl_inv {α β : Type} {P : α → Prop} {f : α → β → α}
    (hf : ∀ a b, P a → P (f a b)) :
    ∀ (l : List β) (init : α), P init → P (l.foldl f init)
  | [], _, h => h
  | b :: l, init, h => foldl_inv hf l (f init b) (hf init b h)

/-- Folding a guarded step function is folding the unguarded step over the
filtered list. -/
theorem foldl_guard_filter {α β : Type} (p : β → Prop) [DecidablePred p]
    (f : α → β → α) :
    ∀ (l : List β) (init : α),
      l.foldl (fun acc b => if p b then f acc b else acc) init =
        (l.filter fun b => decide (p b)).foldl f init
  | [], _ => rfl
  | b :: l, init => by
    by_cases h : p b <;>
      simp [List.foldl_cons, List.filter_cons, h, foldl_guard_filter p f l]

/-- Membership after a `hmInsert`: either an old binding or the new one. -/
theorem mem_hmInsert {α : Type} {x : Bytes × α} :
    ∀ {m : List (Bytes × α)} {k : Bytes} {v : α},
      x ∈ hmInsert m k v → x ∈ m ∨ x = (k, v)
  | [], k, v, hx => by
    simp [hmInsert] at hx
    exact Or.inr hx
  | (k1, v1) :: rest, k, v, hx => by
    by_cases h : k1 = k
    · simp [hmInsert, h] at hx
      rcases hx with hx | hx
      · exact Or.inr (by simp [hx])
      · exact Or.inl (List.mem_cons_of_mem _ hx)
    · simp [hmInsert, h] at hx
      rcases hx with hx | hx
      · exact Or.inl (by simp [hx])
      · rcases mem_hmInsert hx with hm | he
        · exact Or.inl (List.mem_cons_of_mem _ hm)
        · exact Or.inr he

/-- The pushed string is in the pool. -/
theorem mem_pushIfMissing_self (l : List Bytes) (s : Bytes) :
    s ∈ pushIfMissing l s := by
  unfold pushIfMissing
  split
  · assumption
  · simp

/-- Pool membership survives further pushes. -/
theorem mem_pushIfMissing_of_mem {l : List Bytes} {s : Bytes} (t : Bytes)
    (h : s ∈ l) : s ∈ pushIfMissing l t := by
  unfold pushIfMissing
  split
  · exact h
  · exact List.mem_append_left _ h

/-- Every string of the pool occurs literally in the strings chunk. -/
theorem create_strings_chunk_contains {resource : Resource} {s : Bytes}
    (h : s ∈ strings_pool resource) :
    ∃ l1 l2, create_strings_chunk resource = l1 ++ s ++ l2 := by
  obtain ⟨t1, t2, ht⟩ := List.append_of_mem h
  refine ⟨(u32le 0 ++ List.replicate 708 0) ++ (t1.map encStringRecord).flatten
      ++ ([1, 0] ++ u16le s.length), (t2.map encStringRecord).flatten, ?_⟩
  simp [create_strings_chunk, ht, encStringRecord]

/-- One `regionStep` preserves "every region holds exactly one node". -/
theorem regionStep_preserves (st : StringTable) (entries : List NodeEntry)
    (acc : List (Option Node) × List (Bytes × Region) × Bool) (i : Nat)
    (h : ∀ p ∈ acc.2.1, p.2.nodes.length = 1) :
    ∀ p ∈ (regionStep st entries acc i).2.1, p.2.nodes.length = 1 := by
  unfold regionStep regionStepRoot
  split
  · split
    · intro p hp
      rcases mem_hmInsert hp with hm | he
      · exact h p hm
      · subst he; rfl
    · exact h
  · exact h

/-- The default-region fallback preserves "every region holds exactly one
node". -/
theorem defaultRegionPass_preserves (st : StringTable) :
    ∀ (nodes : List (Option Node)) (idx : Nat) (regions : List (Bytes × Region)),
      (∀ p ∈ regions, p.2.nodes.length = 1) →
      ∀ p ∈ (defaultRegionPass st nodes idx regions).1, p.2.nodes.length = 1
  | [], _, _, h => h
  | none :: rest, idx, regions, h =>
    defaultRegionPass_preserves st rest (idx + 1) regions h
  | some _ :: _, _, regions, h => by
    intro p hp
    rcases mem_hmInsert hp with hm | he
    · exact h p hm
    · subst he; rfl

/-- Every region built by `build_resource` holds exactly one node. -/
theorem build_resource_one_node_per_region (version : Nat) (st : StringTable)
    (node_entries : List NodeEntry) (attribute_entries : List AttributeEntry)
    (values_data : List Nat) :
    ∀ p ∈ (build_resource version st node_entries attribute_entries
      values_data).regions, p.2.nodes.length = 1 := by
  have hfold : ∀ (nodes0 : List (Option Node)),
      ∀ p ∈ ((List.range node_entries.length).foldl
        (regionStep st node_entries) (nodes0, [], false)).2.1,
        p.2.nodes.length = 1 := by
    intro nodes0
    exact foldl_inv (P := fun acc => ∀ p ∈ acc.2.1, p.2.nodes.length = 1)
      (fun acc i h => regionStep_preserves st node_entries acc i h)
      (List.range node_entries.length) (nodes0, [], false) (by simp)
  intro p hp
  simp only [build_resource] at hp
  split at hp
  · simp at hp
  · split at hp
    · exact defaultRegionPass_preserves st _ _ _ (hfold _) p hp
    · exact hfold _ p hp

/-! ### Concrete inputs used by the claim theorems -/

/-- The 72-byte minimal v7 LSF file: magic `"LSOF"`, version 7, zero engine
version and an all-zero metadata block (no chunk data). -/
def fileC1 : List Nat := lsofMagic ++ u32le 7 ++ u64le 0 ++ List.replicate 56 0

/-- Bytes of `"Unknown_0xffffffff"`, the synthetic name produced for the
unresolved `0xffffffff` name reference. -/
def sUnknownFFFF : Bytes :=
  sUnknown0x ++ [102, 102, 102, 102, 102, 102, 102, 102]

/-- The 16 wire bytes `00 01 .. 0F` of the UUID boundary scenario. -/
def c2WireBytes : Bytes := [0, 1, 2, 3, 4, 5, 6, 7, 8, 9, 10, 11, 12, 13, 14, 15]

/-- The internal UUID bytes after the half-reversal of the last 8 bytes. -/
def c2InternalBytes : Bytes := [0, 1, 2, 3, 4, 5, 6, 7, 15, 14, 13, 12, 11, 10, 9, 8]

/-- String table with bucket 0 = `["A", "B"]` in a 0x200-bucket layout. -/
def stC3 : StringTable := .hashTable ([[65], [66]] :: List.replicate 0x1FF [])

/-- Two node records: `"A"` with `parent_index = -1` (a strict root) and
`"B"` with `parent_index = 0` (not a strict root). -/
def entriesC3 : List NodeEntry := [⟨0, -1, -1, -1⟩, ⟨1, 0, -1, -1⟩]

/-- String table with bucket 0 = `["A", "B", "C"]` in a 0x200-bucket layout. -/
def stC4 : StringTable := .hashTable ([[65], [66], [67]] :: List.replicate 0x1FF [])

/-- Three node records: roots `"A"` and `"B"` (`parent_index = -1`) and a
child `"C"` with `parent_index = 1` (pointing at `"B"`). -/
def entriesC4 : List NodeEntry :=
  [⟨0, -1, -1, -1⟩, ⟨1, -1, -1, -1⟩, ⟨2, 1, -1, -1⟩]

/-- The node `"A"` (`node_0`) as decoded from `entriesC4`. -/
def nodeC4A : Node := .mk (sNodePrefix ++ [48]) (some [65]) none [] []

/-- The node `"B"` (`node_1`) as decoded from `entriesC4`. -/
def nodeC4B : Node := .mk (sNodePrefix ++ [49]) (some [66]) none [] []

/-- The resource decoded from `entriesC4`: regions `"A"` and `"B"` only, each
with one childless node — `"C"` appears nowhere. -/
def resourceC4 : Resource :=
  ⟨⟨7, 0, 0, 0⟩, [([65], ⟨[65], [nodeC4A]⟩), ([66], ⟨[66], [nodeC4B]⟩)]⟩

/-- The strings chunk of scenario S2: canonical 0x200-bucket layout with
bucket 0 = `["R", "N", "A"]` and all other buckets empty. -/
def stringsChunkC5 : List Nat :=
  u32le 0x200 ++ u16le 3 ++ (u16le 1 ++ [82]) ++ (u16le 1 ++ [78]) ++ (u16le 1 ++ [65])
    ++ (List.replicate 511 (u16le 0)).flatten

/-- The nodes chunk of scenario S2: one record naming `"N"` (bucket 0
position 1) with `parent = -1`, no sibling, `first_attr = 0`. -/
def nodesChunkC5 : List Nat := u32le 1 ++ i32le (-1) ++ i32le (-1) ++ i32le 0

/-- The attributes chunk of scenario S2: one record naming `"A"` (bucket 0
position 2) with type id 4 and length 4 (`type_and_length = 260`),
`next_attr = -1`, `offset = 0`. -/
def attrsChunkC5 : List Nat := u32le 2 ++ u32le 260 ++ i32le (-1) ++ u32le 0

/-- The values blob of scenario S2: `2A 00 00 00`. -/
def valuesChunkC5 : List Nat := [42, 0, 0, 0]

/-- The complete v7 file of scenario S2, chunks stored raw. -/
def fileC5 : List Nat := lsofMagic ++ u32le 7 ++ u64le 0
  ++ u32le stringsChunkC5.length ++ u32le 0
  ++ u32le 0 ++ u32le 0
  ++ u32le nodesChunkC5.length ++ u32le 0
  ++ u32le attrsChunkC5.length ++ u32le 0
  ++ u32le valuesChunkC5.length ++ u32le 0
  ++ u32le 0 ++ u32le 0 ++ u32le 0 ++ u32le 0
  ++ stringsChunkC5 ++ nodesChunkC5 ++ attrsChunkC5 ++ valuesChunkC5

/-- The node decoded from scenario S2: id `node_0`, name `"N"`, attribute
`"A" = Int(42)`. -/
def nodeC5 : Node :=
  .mk (sNodePrefix ++ [48]) (some [78]) none
    [([65], ⟨AttributeType.Int, AttributeValue.Int 42⟩)] []

/-- The resource decoded from scenario S2: one region named `"N"` (the root
node's name) holding `nodeC5`. -/
def resourceC5 : Resource := ⟨⟨7, 0, 0, 0⟩, [([78], ⟨[78], [nodeC5]⟩)]⟩

/-- A v7 file with empty strings, attributes and values chunks and a single
16-byte node record (name id 0, `parent = -1`, no sibling, no attributes). -/
def c8File : List Nat := lsofMagic ++ u32le 7 ++ u64le 0
  ++ u32le 0 ++ u32le 0
  ++ u32le 0 ++ u32le 0
  ++ u32le 16 ++ u32le 0
  ++ u32le 0 ++ u32le 0
  ++ u32le 0 ++ u32le 0
  ++ u32le 0 ++ u32le 0 ++ u32le 0 ++ u32le 0
  ++ (u32le 0 ++ i32le (-1) ++ i32le (-1) ++ i32le (-1))

/-- Bytes of `"Unknown_0x00000000"`, the synthetic name of `c8File`'s node
(its name id 0 resolves to nothing in the empty string table). -/
def c8Name : Bytes := sUnknown0x ++ [48, 48, 48, 48, 48, 48, 48, 48]

/-- The one region binding of the resource decoded from `c8File`. -/
def c8Pair : Bytes × Region :=
  (c8Name, ⟨c8Name, [.mk (sNodePrefix ++ [48]) (some c8Name) none [] []]⟩)

/-- The resource decoded from `c8File`: version 7 and the single region
`c8Pair`. -/
def c8WitnessResource : Resource := ⟨⟨7, 0, 0, 0⟩, [c8Pair]⟩

/-! ### Claim theorems -/

/-- C1: the semantic LSF round-trip `read(write(read(X))) ≡ read(X)` fails.
For the minimal v7 file `fileC1`, `read(X)` decodes successfully with zero
regions, but re-reading the writer's output yields one region named
`Unknown_0xffffffff` (the writer emits hard-coded placeholder records rather
than an encoding of the resource). -/
theorem c1_semantic_roundtrip_broken :
    (read_lsf_from_stream fileC1).map (fun r => r.regions.map Prod.fst) = some [] ∧
    ((read_lsf_from_stream fileC1).bind fun r =>
      (read_lsf_from_stream (write_lsf r)).map fun r2 => r2.regions.map Prod.fst) =
      some [sUnknownFFFF] :=
  ⟨rfl, rfl⟩

/-- C2: decoding a type-31 (guid) attribute from wire bytes `00..0F` applies
the half-reversal of the last 8 bytes, but re-encoding the resulting UUID
writes the internal bytes unchanged — not the original wire bytes — because
`write_attribute_value` performs no swap. -/
theorem c2_uuid_swap_missing_on_write :
    read_attribute_value c2WireBytes AttributeType.UUID 16 =
      some (AttributeValue.UUID c2InternalBytes) ∧
    write_attribute_value (AttributeValue.UUID c2InternalBytes) = c2InternalBytes ∧
    c2InternalBytes ≠ c2WireBytes :=
  ⟨rfl, rfl, by decide⟩

/-- C3 counterexample: with node records `A (parent -1)` and `B (parent 0)`,
strict decoding (`parent_idx == -1`) yields the non-empty region set `{A}`,
yet `build_resource` also makes `B` a region root — the permissive criterion
`parent_idx ≤ 0` is applied unconditionally, not as a fallback. -/
theorem c3_counterexample :
    (entriesC3.getD 0 default).parent_index = -1 ∧
    (entriesC3.getD 1 default).parent_index = 0 ∧
    (build_resource 7 stC3 entriesC3 [] []).regions.map Prod.fst = [[65], [66]] :=
  ⟨rfl, rfl, rfl⟩

/-- C3 amended: during graph reconstruction a node record is treated as a
region root exactly when `parent_idx ≤ 0`, unconditionally: the root pass of
`build_resource` is the fold of the root handling over precisely the records
with `parent_index ≤ 0`, with no strict `== -1` pass and no zero-region
precondition. -/
theorem c3_amended_permissive_root_rule (st : StringTable)
    (entries : List NodeEntry) (nodes : List (Option Node)) :
    (List.range entries.length).foldl (regionStep st entries)
      (nodes, [], false) =
      ((List.range entries.length).filter fun i =>
        decide ((entries.getD i default).parent_index ≤ 0)).foldl
        (regionStepRoot st) (nodes, [], false) :=
  foldl_guard_filter (fun i => (entries.getD i default).parent_index ≤ 0)
    (regionStepRoot st) (List.range entries.length) (nodes, [], false)

/-- C4: index soundness fails — `build_resource` never attaches children
(`collect_children` is dead code). For `entriesC4`, where record 2 (`"C"`)
has `parent_index = 1`, the decoded resource consists of exactly the two
root regions `"A"` and `"B"`, each holding one childless node: `"C"` is
neither a region root nor in the children list of its parent, it is
silently dropped. -/
theorem c4_child_node_dropped :
    (entriesC4.getD 2 default).parent_index = 1 ∧ entriesC4.length = 3 ∧
    build_resource 7 stC4 entriesC4 [] [] = resourceC4 :=
  ⟨rfl, rfl, rfl⟩

/-- C5 counterexample: reading the S2 file yields a resource whose only
region is named `"N"` — not `"R"` as the claim states (the reader always
names a region after its root node; the string `"R"` is never used). -/
theorem c5_counterexample :
    (read_lsf_from_stream fileC5).map (fun r => r.regions.map Prod.fst) =
      some [[78]] :=
  rfl

/-- C5 amended: reading the S2 file yields a resource with one region named
`"N"` (the root node's name serves as the region name) containing node `"N"`
with attribute `"A"` equal to `Int(42)`. -/
theorem c5_amended_region_named_after_root :
    read_lsf_from_stream fileC5 = some resourceC5 :=
  rfl

/-- C6 counterexample: the writer appends a NUL terminator to a
length-prefixed string value — writing the one-byte string `"A"` emits
`[0x41, 0x00]`, not the bare encoded bytes `[0x41]`. -/
theorem c6_counterexample :
    write_attribute_value (AttributeValue.String [65]) = [65, 0] ∧
    ([65, 0] : Bytes) ≠ [65] :=
  ⟨rfl, by decide⟩

/-- C6 amended: for every length-prefixed string value the writer emits the
value's encoded bytes followed by one trailing NUL terminator (a two-byte
NUL code unit for the wide-string types). -/
theorem c6_amended_trailing_nul :
    (∀ s : Bytes, write_attribute_value (AttributeValue.String s) = s ++ [0]) ∧
    (∀ s : Bytes, write_attribute_value (AttributeValue.Path s) = s ++ [0]) ∧
    (∀ s : Bytes, write_attribute_value (AttributeValue.FixedString s) = s ++ [0]) ∧
    (∀ s : Bytes, write_attribute_value (AttributeValue.LSString s) = s ++ [0]) ∧
    (∀ u : List Nat,
      write_attribute_value (AttributeValue.WString u) = (u.map u16le).flatten ++ [0, 0]) ∧
    (∀ u : List Nat,
      write_attribute_value (AttributeValue.LSWString u) = (u.map u16le).flatten ++ [0, 0]) :=
  ⟨fun _ => rfl, fun _ => rfl, fun _ => rfl, fun _ => rfl, fun _ => rfl, fun _ => rfl⟩

/-- C7: every `AttributeType` has a numeric id in `[0, 33]`, and every tag
recognized by `AttributeType::from_str` round-trips: `from_str s = some t`
implies `as_str t = s`. -/
theorem c7_enumeration_closure :
    (∀ t : AttributeType, t.to_id ≤ 33) ∧
    (∀ (s : TagString) (t : AttributeType),
      AttributeType.from_str s = some t → t.as_str = s) := by
  constructor
  · intro t; cases t <;> decide
  · intro s t h
    unfold AttributeType.from_str at h
    by_cases h1 : s = "None"
    · rw [if_pos h1] at h; injection h with he; subst he; rw [h1]; exact rfl
    rw [if_neg h1] at h
    by_cases h2 : s = "uint8"
    · rw [if_pos h2] at h; injection h with he; subst he; rw [h2]; exact rfl
    rw [if_neg h2] at h
    by_cases h3 : s = "int16"
    · rw [if_pos h3] at h; injection h with he; subst he; rw [h3]; exact rfl
    rw [if_neg h3] at h
    by_cases h4 : s = "uint16"
    · rw [if_pos h4] at h; injection h with he; subst he; rw [h4]; exact rfl
    rw [if_neg h4] at h
    by_cases h5 : s = "int32"
    · rw [if_pos h5] at h; injection h with he; subst he; rw [h5]; exact rfl
    rw [if_neg h5] at h
    by_cases h6 : s = "uint32"
    · rw [if_pos h6] at h; injection h with he; subst he; rw [h6]; exact rfl
    rw [if_neg h6] at h
    by_cases h7 : s = "float"
    · rw [if_pos h7] at h; injection h with he; subst he; rw [h7]; exact rfl
    rw [if_neg h7] at h
    by_cases h8 : s = "double"
    · rw [if_pos h8] at h; injection h with he; subst he; rw [h8]; exact rfl
    rw [if_neg h8] at h
    by_cases h9 : s = "ivec2"
    · rw [if_pos h9] at h; injection h with he; subst he; rw [h9]; exact rfl
    rw [if_neg h9] at h
    by_cases h10 : s = "ivec3"
    · rw [if_pos h10] at h; injection h with he; subst he; rw [h10]; exact rfl
    rw [if_neg h10] at h
    by_cases h11 : s = "ivec4"
    · rw [if_pos h11] at h; injection h with he; subst he; rw [h11]; exact rfl
    rw [if_neg h11] at h
    by_cases h12 : s = "fvec2"
    · rw [if_pos h12] at h; injection h with he; subst he; rw [h12]; exact rfl
    rw [if_neg h12] at h
    by_cases h13 : s = "fvec3"
    · rw [if_pos h13] at h; injection h with he; subst he; rw [h13]; exact rfl
    rw [if_neg h13] at h
    by_cases h14 : s = "fvec4"
    · rw [if_pos h14] at h; injection h with he; subst he; rw [h14]; exact rfl
    rw [if_neg h14] at h
    by_cases h15 : s = "mat2"
    · rw [if_pos h15] at h; injection h with he; subst he; rw [h15]; exact rfl
    rw [if_neg h15] at h
    by_cases h16 : s = "mat3"
    · rw [if_pos h16] at h; injection h with he; subst he; rw [h16]; exact rfl
    rw [if_neg h16] at h
    by_cases h17 : s = "mat3x4"
    · rw [if_pos h17] at h; injection h with he; subst he; rw [h17]; exact rfl
    rw [if_neg h17] at h
    by_cases h18 : s = "mat4x3"
    · rw [if_pos h18] at h; injection h with he; subst he; rw [h18]; exact rfl
    rw [if_neg h18] at h
    by_cases h19 : s = "mat4"
    · rw [if_pos h19] at h; injection h with he; subst he; rw [h19]; exact rfl
    rw [if_neg h19] at h
    by_cases h20 : s = "bool"
    · rw [if_pos h20] at h; injection h with he; subst he; rw [h20]; exact rfl
    rw [if_neg h20] at h
    by_cases h21 : s = "LSString"
    · rw [if_pos h21] at h; injection h with he; subst he; rw [h21]; exact rfl
    rw [if_neg h21] at h
    by_cases h22 : s = "path"
    · rw [if_pos h22] at h; injection h with he; subst he; rw [h22]; exact rfl
    rw [if_neg h22] at h
    by_cases h23 : s = "FixedString"
    · rw [if_pos h23] at h; injection h with he; subst he; rw [h23]; exact rfl
    rw [if_neg h23] at h
    by_cases h24 : s = "uint64"
    · rw [if_pos h24] at h; injection h with he; subst he; rw [h24]; exact rfl
    rw [if_neg h24] at h
    by_cases h25 : s = "ScratchBuffer"
    · rw [if_pos h25] at h; injection h with he; subst he; rw [h25]; exact rfl
    rw [if_neg h25] at h
    by_cases h26 : s = "int64"
    · rw [if_pos h26] at h; injection h with he; subst he; rw [h26]; exact rfl
    rw [if_neg h26] at h
    by_cases h27 : s = "int8"
    · rw [if_pos h27] at h; injection h with he; subst he; rw [h27]; exact rfl
    rw [if_neg h27] at h
    by_cases h28 : s = "TranslatedString"
    · rw [if_pos h28] at h; injection h with he; subst he; rw [h28]; exact rfl
    rw [if_neg h28] at h
    by_cases h29 : s = "WString"
    · rw [if_pos h29] at h; injection h with he; subst he; rw [h29]; exact rfl
    rw [if_neg h29] at h
    by_cases h30 : s = "LSWString"
    · rw [if_pos h30] at h; injection h with he; subst he; rw [h30]; exact rfl
    rw [if_neg h30] at h
    by_cases h31 : s = "guid"
    · rw [if_pos h31] at h; injection h with he; subst he; rw [h31]; exact rfl
    rw [if_neg h31] at h
    by_cases h32 : s = "TranslatedFSString"
    · rw [if_pos h32] at h; injection h with he; subst he; rw [h32]; exact rfl
    rw [if_neg h32] at h
    exact Option.noConfusion h

/-- C7 witness: `from_str "guid" = some UUID`, and the round-trip law gives
`as_str UUID = "guid"`. -/
theorem c7_witness : AttributeType.as_str AttributeType.UUID = "guid" :=
  c7_enumeration_closure.2 "guid" AttributeType.UUID (by decide)

/-- C8: every resource returned by the LSF reader places exactly one
top-level node in each region. -/
theorem c8_one_node_per_region (bytes : List Nat) (r : Resource)
    (h : read_lsf_from_stream bytes = some r) :
    ∀ p ∈ r.regions, p.2.nodes.length = 1 := by
  unfold read_lsf_from_stream at h
  rcases Option.map_eq_some'.mp h with ⟨parts, _, hr⟩
  obtain ⟨v, st, ne, ae, vd⟩ := parts
  simp only at hr
  subst hr
  exact build_resource_one_node_per_region v st ne ae vd

/-- C8 witness: `c8File` decodes to `c8WitnessResource`, whose one region
binding `c8Pair` holds exactly one node. -/
theorem c8_witness : c8Pair.2.nodes.length = 1 :=
  c8_one_node_per_region c8File c8WitnessResource rfl c8Pair
    (List.mem_cons_self c8Pair [])

/-- C9: the strings chunk produced by the LSF writer contains the literal
strings `"ActiveProfile"` and `"UserProfiles"` for every resource, even when
neither occurs in the resource. -/
theorem c9_hardcoded_profile_strings (resource : Resource) :
    (∃ l1 l2, create_strings_chunk resource = l1 ++ sActiveProfile ++ l2) ∧
    (∃ l1 l2, create_strings_chunk resource = l1 ++ sUserProfiles ++ l2) :=
  ⟨create_strings_chunk_contains
      (mem_pushIfMissing_of_mem _ (mem_pushIfMissing_self _ _)),
    create_strings_chunk_contains (mem_pushIfMissing_self _ _)⟩

/-- C10: a compression-flags word whose low nibble is 4..15 is not a defined
method; the reader falls back to `CompressionMethod::None` and decompression
then returns chunk data unchanged instead of reporting an error. -/
theorem c10_unknown_method_treated_uncompressed (flags : Nat)
    (h : 4 ≤ flags % 16) :
    get_compression_method flags = CompressionMethod.None ∧
    ∀ (data : List Nat) (expected_size : Nat),
      decompress data (get_compression_method flags) expected_size = some data := by
  obtain ⟨k, hk⟩ : ∃ k, flags % 16 = k + 4 := ⟨flags % 16 - 4, by omega⟩
  have h1 : get_compression_method flags = CompressionMethod.None := by
    simp only [get_compression_method, hk]
    rfl
  refine ⟨h1, fun data expected_size => ?_⟩
  rw [h1]
  rfl

/-- C10 witness: flags word 7 (low nibble 7) yields method `None` and
pass-through decompression. -/
theorem c10_witness :
    get_compression_method 7 = CompressionMethod.None ∧
    ∀ (data : List Nat) (expected_size : Nat),
      decompress data (get_compression_method 7) expected_size = some data :=
  c10_unknown_method_treated_uncompressed 7 (by decide)

end PackUnpack
